import Mathlib

/-!
Verification development for the FlowiseAI integration pipeline
(`src/examples/pipelines/integrations/flowise_pipeline.py`).

The Python module is shallowly embedded here:

* JSON-like dynamic values (`dict` / `list` / `str` / `int` / `bool` / `None`)
  are the mutual inductive family `JVal` / `JList` / `JObj`.
* `json.loads` (the standard-library parser, external to the repository) is
  modelled by the executable recursive-descent routine `loadsJson`.  The model
  parses the JSON grammar with integer numerals only (a document containing a
  fractional or exponent numeral fails to parse in the model) and treats
  parsed objects as ordered association lists.  None of the claims checked
  below depends on non-integer numerals or duplicate-key handling.
* `json.dumps` is modelled by `dumpsV`; the `indent=2` pretty-printing
  variant used in the source is rendered compactly — no claim depends on the
  whitespace of serialized payloads.
* Python exception *messages* interpolated into fragments are modelled by the
  exception class name only; no claim inspects the message text.
* Wall-clock timestamps interpolated into fragments are abstracted by the
  `now : String` parameter of the stream driver.
* The transport is out of scope per the spec: the stream driver receives the
  already-connected chunk iterator as a `List JVal` (raw string items are
  `JVal.str`), and the static driver receives the parsed 200-response body.
-/

/-! ## Characters and Python string helpers -/

/-- JSON inter-token whitespace (RFC 8259: space, tab, line feed, carriage return). -/
def isJsonWs (c : Char) : Bool :=
  c = ' ' || c = '\t' || c = '\n' || c = '\r'

/-- Whitespace stripped by Python `str.strip()` (ASCII subset). -/
def isPyWs (c : Char) : Bool :=
  c = ' ' || c = '\t' || c = '\n' || c = '\r' || c = '\x0b' || c = '\x0c'

/-- Drop leading JSON whitespace. -/
def skipWs (cs : List Char) : List Char :=
  cs.dropWhile isJsonWs

/-- Python `str.strip()` on a character list: drop leading and trailing whitespace. -/
def stripChars (cs : List Char) : List Char :=
  ((cs.dropWhile isPyWs).reverse.dropWhile isPyWs).reverse

/-- Python `str.strip()`. -/
def pyStrip (s : String) : String :=
  String.mk (stripChars s.data)

/-- Does `pre` occur at the head of `l`? (`str.startswith` for the list form). -/
def listStarts : List Char → List Char → Bool
  | [], _ => true
  | _ :: _, [] => false
  | a :: as, b :: bs => a = b && listStarts as bs

/-- Python `needle in hay` for strings: substring containment. -/
def listHasSub (needle : List Char) : List Char → Bool
  | [] => listStarts needle []
  | c :: tl => listStarts needle (c :: tl) || listHasSub needle tl

/-- Python `"error" in s` for a string `s`. -/
def strHasErrorSub (s : String) : Bool :=
  listHasSub "error".data s.data

/-- The guard of `try_parse_json`: the (already stripped) string starts and ends
with `\x7b`…`\x7d` or `[`…`]`. -/
def jsonLooking (s : String) : Bool :=
  (s.data.head? = some '{' && s.data.getLast? = some '}')
    || (s.data.head? = some '[' && s.data.getLast? = some ']')

/-! ## Dynamic values -/

mutual

/-- A Python value as produced by `json.loads` / consumed by `json.dumps`:
`None`, `bool`, `int`, `str`, `list`, `dict`. -/
inductive JVal where
  | null
  | bool (b : Bool)
  | num (n : Int)
  | str (s : String)
  | arr (items : JList)
  | obj (entries : JObj)
  deriving DecidableEq

/-- A Python list of `JVal`s. -/
inductive JList where
  | nil
  | cons (v : JVal) (tl : JList)
  deriving DecidableEq

/-- A Python dict: ordered key/value entries. -/
inductive JObj where
  | nil
  | cons (k : String) (v : JVal) (tl : JObj)
  deriving DecidableEq

end

mutual

/-- Size measure on values: counts one per node plus the length of every
string leaf.  Used as recursion fuel for the unwrapper. -/
def muV : JVal → Nat
  | .null => 1
  | .bool _ => 1
  | .num _ => 1
  | .str s => 1 + s.length
  | .arr l => 1 + muL l
  | .obj l => 1 + muO l

/-- Size measure on lists. -/
def muL : JList → Nat
  | .nil => 0
  | .cons v tl => 1 + muV v + muL tl

/-- Size measure on dict entries (keys are not measured: the unwrapper never
recurses into keys). -/
def muO : JObj → Nat
  | .nil => 0
  | .cons _ v tl => 1 + muV v + muO tl

end

/-- Python `d.get(k)`: first value stored under `k`, if any. -/
def jget : JObj → String → Option JVal
  | .nil, _ => none
  | .cons k v tl, key => if k = key then some v else jget tl key

/-- Python `k in d` for a dict. -/
def hasKey (l : JObj) (k : String) : Bool :=
  (jget l k).isSome

/-- Python `x in l` for a list: element equality. -/
def jlistContains : JList → JVal → Bool
  | .nil, _ => false
  | .cons v tl, x => v = x || jlistContains tl x

/-! ## The JSON parser (model of `json.loads`) -/

/-- Hexadecimal digit value. -/
def hexDigit (c : Char) : Option Nat :=
  if '0' ≤ c ∧ c ≤ '9' then some (c.toNat - '0'.toNat)
  else if 'a' ≤ c ∧ c ≤ 'f' then some (10 + c.toNat - 'a'.toNat)
  else if 'A' ≤ c ∧ c ≤ 'F' then some (10 + c.toNat - 'A'.toNat)
  else none

/-- Single-character JSON escapes. -/
def escMap (c : Char) : Option Char :=
  if c = '"' then some '"'
  else if c = '\\' then some '\\'
  else if c = '/' then some '/'
  else if c = 'b' then some '\x08'
  else if c = 'f' then some '\x0c'
  else if c = 'n' then some '\n'
  else if c = 'r' then some '\r'
  else if c = 't' then some '\t'
  else none

/-- Parse the body of a JSON string literal (after the opening quote), up to
and including the closing quote.  Returns the content and the remainder. -/
def parseStrF : Nat → List Char → Option (List Char × List Char)
  | 0, _ => none
  | _ + 1, [] => none
  | f + 1, c :: cs =>
    if c = '"' then some ([], cs)
    else if c = '\\' then
      match cs with
      | 'u' :: h1 :: h2 :: h3 :: h4 :: cs2 =>
        match hexDigit h1, hexDigit h2, hexDigit h3, hexDigit h4 with
        | some a, some b, some c3, some d =>
          (parseStrF f cs2).map
            (fun p => (Char.ofNat (((a * 16 + b) * 16 + c3) * 16 + d) :: p.1, p.2))
        | _, _, _, _ => none
      | e :: cs2 =>
        match escMap e with
        | some ce => (parseStrF f cs2).map (fun p => (ce :: p.1, p.2))
        | none => none
      | [] => none
    else (parseStrF f cs).map (fun p => (c :: p.1, p.2))

/-- Digits-to-number accumulator. -/
def digitsToNat (ds : List Char) : Nat :=
  ds.foldl (fun a c => a * 10 + (c.toNat - '0'.toNat)) 0

/-- Decimal digit test. -/
def isDigit (c : Char) : Bool :=
  '0' ≤ c && c ≤ '9'

/-- Parse a nonempty run of decimal digits. -/
def parseDigits (cs : List Char) : Option (Nat × List Char) :=
  if cs.takeWhile isDigit = [] then none
  else some (digitsToNat (cs.takeWhile isDigit), cs.dropWhile isDigit)

/-- Parse an (integer) JSON numeral, with optional leading minus. -/
def parseNum : List Char → Option (Int × List Char)
  | '-' :: rest => (parseDigits rest).map (fun p => (-(p.1 : Int), p.2))
  | cs => (parseDigits cs).map (fun p => ((p.1 : Int), p.2))

mutual

/-- Parse one JSON value (leading whitespace allowed). -/
def parseVal : Nat → List Char → Option (JVal × List Char)
  | 0, _ => none
  | f + 1, cs =>
    match skipWs cs with
    | [] => none
    | c :: cs1 =>
      if c = '{' then
        match skipWs cs1 with
        | '}' :: cs2 => some (.obj .nil, cs2)
        | cs2 => (parseObjItems f cs2).map (fun p => (.obj p.1, p.2))
      else if c = '[' then
        match skipWs cs1 with
        | ']' :: cs2 => some (.arr .nil, cs2)
        | cs2 => (parseArrItems f cs2).map (fun p => (.arr p.1, p.2))
      else if c = '"' then
        (parseStrF (cs1.length + 1) cs1).map (fun p => (.str (String.mk p.1), p.2))
      else if c = 'n' then
        match cs1 with
        | 'u' :: 'l' :: 'l' :: r => some (.null, r)
        | _ => none
      else if c = 't' then
        match cs1 with
        | 'r' :: 'u' :: 'e' :: r => some (.bool true, r)
        | _ => none
      else if c = 'f' then
        match cs1 with
        | 'a' :: 'l' :: 's' :: 'e' :: r => some (.bool false, r)
        | _ => none
      else
        (parseNum (c :: cs1)).map (fun p => (.num p.1, p.2))

/-- Parse the members of a nonempty JSON array, up to and including `]`. -/
def parseArrItems : Nat → List Char → Option (JList × List Char)
  | 0, _ => none
  | f + 1, cs =>
    (parseVal f cs).bind (fun p =>
      match skipWs p.2 with
      | ',' :: r2 => (parseArrItems f r2).map (fun q => (.cons p.1 q.1, q.2))
      | ']' :: r2 => some (.cons p.1 .nil, r2)
      | _ => none)

/-- Parse the members of a nonempty JSON object (cursor at the first key's
quote), up to and including `\x7d`. -/
def parseObjItems : Nat → List Char → Option (JObj × List Char)
  | 0, _ => none
  | f + 1, cs =>
    match cs with
    | '"' :: cs1 =>
      (parseStrF (cs1.length + 1) cs1).bind (fun kp =>
        match skipWs kp.2 with
        | ':' :: r2 =>
          (parseVal f r2).bind (fun p =>
            match skipWs p.2 with
            | ',' :: r4 =>
              (parseObjItems f (skipWs r4)).map
                (fun q => (.cons (String.mk kp.1) p.1 q.1, q.2))
            | '}' :: r4 => some (.cons (String.mk kp.1) p.1 .nil, r4)
            | _ => none)
        | _ => none)
    | _ => none

end

/-- Model of `json.loads`: parse one JSON document, requiring only trailing
whitespace after the value. -/
def loadsJson (s : String) : Option JVal :=
  match parseVal (s.data.length + 1) s.data with
  | some (v, r) => if skipWs r = [] then some v else none
  | none => none


/-! ## The Nested-JSON Unwrapper (`Pipeline.unwrap_json`) -/

/-- `try_parse_json` from `unwrap_json`: for a string, strip it and, when the
stripped form starts/ends with matching brackets, attempt a JSON parse;
return the parse on success and the *stripped* string otherwise.  Non-strings
are returned unchanged. -/
def tryParseJson : JVal → JVal
  | .str s0 =>
    let s := pyStrip s0
    if jsonLooking s then
      match loadsJson s with
      | some v => v
      | none => .str s
    else .str s
  | v => v

mutual

/-- The `recurse` helper of `unwrap_json`, made structural on an explicit
fuel argument (the Python recursion terminates because parsing strictly
shrinks the `muV` measure; `muV` fuel is proved sufficient below). -/
def unwrapF : Nat → JVal → JVal
  | 0, v => v
  | f + 1, v =>
    match tryParseJson v with
    | .obj l => .obj (unwrapO f l)
    | .arr l => .arr (unwrapA f l)
    | w => w

/-- `recurse` mapped over a list. -/
def unwrapA : Nat → JList → JList
  | 0, l => l
  | _ + 1, .nil => .nil
  | f + 1, .cons v tl => .cons (unwrapF f v) (unwrapA f tl)

/-- `recurse` mapped over dict values. -/
def unwrapO : Nat → JObj → JObj
  | 0, l => l
  | _ + 1, .nil => .nil
  | f + 1, .cons k v tl => .cons k (unwrapF f v) (unwrapO f tl)

end

/-- `Pipeline.unwrap_json`. -/
def unwrap_json (v : JVal) : JVal :=
  unwrapF (muV v) v


/-! ## Serialization (model of `json.dumps`) and f-string interpolation -/

/-- Escape one character for a JSON string literal. -/
def escOut (c : Char) : String :=
  if c = '"' then "\\\""
  else if c = '\\' then "\\\\"
  else if c = '\n' then "\\n"
  else if c = '\t' then "\\t"
  else if c = '\r' then "\\r"
  else String.mk [c]

/-- Escape a character list for a JSON string literal. -/
def escChars : List Char → String
  | [] => ""
  | c :: tl => escOut c ++ escChars tl

mutual

/-- Model of `json.dumps` (default separators; pretty-printing variants are
rendered compactly, see the header note). -/
def dumpsV : JVal → String
  | .null => "null"
  | .bool true => "true"
  | .bool false => "false"
  | .num n => toString n
  | .str s => "\"" ++ escChars s.data ++ "\""
  | .arr l => "[" ++ dumpsL l ++ "]"
  | .obj l => "\x7b" ++ dumpsO l ++ "\x7d"

/-- Serialize list members. -/
def dumpsL : JList → String
  | .nil => ""
  | .cons v .nil => dumpsV v
  | .cons v tl => dumpsV v ++ ", " ++ dumpsL tl

/-- Serialize dict entries. -/
def dumpsO : JObj → String
  | .nil => ""
  | .cons k v .nil => "\"" ++ escChars k.data ++ "\": " ++ dumpsV v
  | .cons k v tl => "\"" ++ escChars k.data ++ "\": " ++ dumpsV v ++ ", " ++ dumpsO tl

end

/-- Python f-string interpolation `f"...\x7bx\x7d..."` of a value: strings
verbatim, `None`/`True`/`False`, numbers; containers approximated by their
JSON serialization (no claim inspects interpolated container text). -/
def pyStr : JVal → String
  | .null => "None"
  | .bool true => "True"
  | .bool false => "False"
  | .num n => toString n
  | .str s => s
  | v => dumpsV v

/-! ## Output fragments and configuration -/

/-- One unit of output the pipeline yields: a raw value (`yield data`),
an f-string text fragment, or an ephemeral status record
`\x7b"event": \x7b"type": "status", "data": \x7b"description": …, "done": …\x7d\x7d\x7d`. -/
inductive Frag where
  | out (v : JVal)
  | text (s : String)
  | status (description : String) (done : Bool)
  deriving DecidableEq

/-- The `Pipeline.Valves` settings object (fields used by the drivers). -/
structure Valves where
  FLOWISE_API_KEY : String
  FLOWISE_BASE_URL : String
  RATE_LIMIT : Int
  FLOW_ENABLED : Bool
  FLOW_ID : Option String
  FLOW_NAME : Option String
  DISPLAY_AGENT_FLOW_EVENT : Bool
  DISPLAY_NEXT_AGENT_FLOW : Bool
  DISPLAY_AGENT_FLOW_EXECUTED_DATA : Bool
  DISPLAY_CALLED_TOOLS : Bool
  DISPLAY_CALLED_TOOLS_INPUT : Bool
  DISPLAY_CALLED_TOOLS_OUTPUT : Bool
  DISPLAY_USAGE_METADATA : Bool
  DISPLAY_AGENT_REASONING : Bool
  DISPLAY_METADATA : Bool
  DISPLAY_UPDATE_EVENT : Bool
  DISPLAY_START_EVENT : Bool
  DISPLAY_END_EVENT : Bool
  DISPLAY_OTHER_EVENTS : Bool
  deriving DecidableEq

/-- The valve defaults from the `Valves` field declarations. -/
def defaultValves : Valves where
  FLOWISE_API_KEY := "changeme"
  FLOWISE_BASE_URL := "changeme"
  RATE_LIMIT := 15
  FLOW_ENABLED := false
  FLOW_ID := none
  FLOW_NAME := none
  DISPLAY_AGENT_FLOW_EVENT := true
  DISPLAY_NEXT_AGENT_FLOW := true
  DISPLAY_AGENT_FLOW_EXECUTED_DATA := true
  DISPLAY_CALLED_TOOLS := true
  DISPLAY_CALLED_TOOLS_INPUT := true
  DISPLAY_CALLED_TOOLS_OUTPUT := true
  DISPLAY_USAGE_METADATA := true
  DISPLAY_AGENT_REASONING := true
  DISPLAY_METADATA := true
  DISPLAY_UPDATE_EVENT := true
  DISPLAY_START_EVENT := true
  DISPLAY_END_EVENT := true
  DISPLAY_OTHER_EVENTS := true

/-! ## The Event Classifier & Renderer (`Pipeline.stream_retrieve` loop body) -/

/-- The reasoning blocks of the `agentReasoning` branch (emitted only when
`DISPLAY_AGENT_REASONING` is set): one `[Reasoning Step]` text fragment per
entry of a list payload, or a single `[Reasoning]` fragment otherwise. -/
def reasoningSteps : JList → List Frag
  | .nil => []
  | .cons st tl => .text ("[Reasoning Step] " ++ dumpsV st ++ "\n") :: reasoningSteps tl

/-- Flag-gated part of the `agentReasoning` branch. -/
def reasoningFrags : JVal → List Frag
  | .arr l => reasoningSteps l
  | d => [.text ("[Reasoning] " ++ dumpsV d ++ "\n")]

/-- Format one `usedTools` invocation record (a dict): the tool-name line,
then the input block if `DISPLAY_CALLED_TOOLS_INPUT`, then the output block
(through `unwrap_json`) if `DISPLAY_CALLED_TOOLS_OUTPUT`. -/
def formatToolCall (V : Valves) (l : JObj) : List String :=
  let tool_name := (jget l "tool").getD (.str "Unknown Tool")
  let tool_input0 := (jget l "toolInput").getD (.obj .nil)
  let tool_input :=
    match tool_input0 with
    | .str s => (loadsJson s).getD (.str s)
    | v => v
  let tool_output := unwrap_json ((jget l "toolOutput").getD (.obj .nil))
  ["  - " ++ pyStr tool_name ++ "\n"]
    ++ (if V.DISPLAY_CALLED_TOOLS_INPUT then
          ["```json\nInput:\n\n" ++ dumpsV tool_input ++ "\n```\n"] else [])
    ++ (if V.DISPLAY_CALLED_TOOLS_OUTPUT then
          ["```json\nOutput:\n\n" ++ dumpsV tool_output ++ "\n```"] else [])

/-- Format every `usedTools` invocation record; `none` models the
`AttributeError` raised by `tool_call.get` on a non-dict entry (the
exception discards the partial `formatted_tools` list, which was never
yielded). -/
def formatTools (V : Valves) : JList → Option (List String)
  | .nil => some []
  | .cons (.obj l) tl => (formatTools V tl).map (fun rest => formatToolCall V l ++ rest)
  | .cons _ _ => none

/-- The `usedTools` branch after the unconditional status fragment, for the
`DISPLAY_CALLED_TOOLS = true` case: fragments yielded plus an uncaught
exception, if any. -/
def usedToolsBody (V : Valves) : JVal → List Frag × Option String
  | .arr items =>
    match formatTools V items with
    | some formatted =>
      ([.text ("\n\n__Called Tools__:\n" ++ String.intercalate "\n" formatted ++ "\n")], none)
    | none => ([], some "AttributeError")
  | d => ([.text ("\n\n__Called Tools__:\n```json\n" ++ dumpsV d ++ "\n```\n")], none)

/-- The `agent_trace` branch: `data.get("step")` (raising on a non-dict
payload), then for `step == "agent_action"` parse the JSON-encoded `action`
string and emit a status naming the tool; every failure models the
corresponding uncaught Python exception. -/
def agentTraceFrags : JVal → List Frag × Option String
  | .obj l =>
    if (jget l "step").getD .null = .str "agent_action" then
      match (jget l "action").getD .null with
      | .str s =>
        match loadsJson s with
        | some (.obj al) =>
          ([.status ("Tool calling " ++ pyStr ((jget al "tool").getD (.str "Unknown tool")) ++ "...\n") false],
            none)
        | some _ => ([], some "AttributeError")
        | none => ([], some "JSONDecodeError")
      | _ => ([], some "TypeError")
    else ([], none)
  | _ => ([], some "AttributeError")

/-- Dispatch on `chunk.get("event")` for a dict chunk without an `error` key:
the fragments yielded and the uncaught exception, if any.  Branches appear in
source order; the dead second `elif "error" in chunk` branch of the source is
unreachable (the `error` key is handled before dispatch) and has no model. -/
def renderEvent (V : Valves) (now : String) (event data : JVal) : List Frag × Option String :=
  if event = .str "token" then ([.out data], none)
  else if event = .str "start" then
    (if V.DISPLAY_START_EVENT then
      match data with
      | .str s => [.text ("_Analysis started... " ++ now ++ ":_\n" ++ s ++ "\n")]
      | .obj _ => [.text ("__Start Data__:\n```json\n" ++ dumpsV data ++ "\n```")]
      | .arr _ => [.text ("__Start Data__:\n```json\n" ++ dumpsV data ++ "\n```")]
      | _ => [.text ("[Start] Unexpected data format: " ++ pyStr data ++ "\n")]
     else [], none)
  else if event = .str "update" then
    (if V.DISPLAY_UPDATE_EVENT then [.text ("[Update] " ++ dumpsV data ++ "\n")] else [], none)
  else if event = .str "agentReasoning" then
    (.status "Thinking...\n" false ::
      (if V.DISPLAY_AGENT_REASONING then reasoningFrags data else []), none)
  else if event = .str "metadata" then
    (if V.DISPLAY_METADATA then [.text ("[Metadata] " ++ dumpsV data ++ "\n")] else [], none)
  else if event = .str "agentFlowEvent" then
    (if V.DISPLAY_AGENT_FLOW_EVENT then
      [.text ("[Other Event: agentFlowEvent] " ++ dumpsV data ++ "\n")] else [], none)
  else if event = .str "nextAgentFlow" then
    (if V.DISPLAY_NEXT_AGENT_FLOW then
      [.text ("[Other Event: nextAgentFlow] " ++ dumpsV data ++ "\n")] else [], none)
  else if event = .str "agentFlowExecutedData" then
    (if V.DISPLAY_AGENT_FLOW_EXECUTED_DATA then
      [.text ("[Other Event: agentFlowExecutedData] " ++ dumpsV data ++ "\n")] else [], none)
  else if event = .str "usedTools" then
    if V.DISPLAY_CALLED_TOOLS then
      let body := usedToolsBody V data
      (.status "Tool calling...\n" false :: body.1, body.2)
    else ([.status "Tool calling...\n" false], none)
  else if event = .str "usageMetadata" then
    (if V.DISPLAY_USAGE_METADATA then
      [.text ("[Other Event: usageMetadata] " ++ dumpsV data ++ "\n")] else [], none)
  else if event = .str "end" then
    (if V.DISPLAY_END_EVENT then [.text ("Analysis complete... " ++ now ++ "\n")] else [], none)
  else if event = .str "agent_trace" then agentTraceFrags data
  else
    (if V.DISPLAY_OTHER_EVENTS then
      [.text ("[Other Event: " ++ pyStr event ++ "] " ++ dumpsV data ++ "\n")] else [], none)

/-- Process a parsed chunk: the `"error" in chunk` test (raising `TypeError`
on non-container chunks, and raising on `chunk["error"]` for non-dict
containers that pass it), then `chunk.get("event")` dispatch (raising
`AttributeError` on non-dict chunks). -/
def renderParsed (V : Valves) (now : String) : JVal → List Frag × Option String
  | .obj l =>
    if hasKey l "error" then
      ([.text ("Error during streaming: " ++ pyStr ((jget l "error").getD .null))], none)
    else
      renderEvent V now ((jget l "event").getD .null) ((jget l "data").getD .null)
  | .arr l =>
    if jlistContains l (.str "error") then ([], some "TypeError") else ([], some "AttributeError")
  | .str s =>
    if strHasErrorSub s then ([], some "TypeError") else ([], some "AttributeError")
  | _ => ([], some "TypeError")

/-- One iteration of the chunk loop before exception containment: raw string
items go through `json.loads` first, an unparseable string yielding the
invalid-chunk warning (and no exception). -/
def renderItem (V : Valves) (now : String) : JVal → List Frag × Option String
  | .str s =>
    match loadsJson s with
    | none => ([.text ("Invalid JSON chunk:\n```\n" ++ s ++ "\n```")], none)
    | some v => renderParsed V now v
  | v => renderParsed V now v

/-- One iteration of the chunk loop with the per-chunk `except` boundary:
an uncaught exception becomes a trailing error-handling fragment, after any
fragments already yielded. -/
def processChunk (V : Valves) (now : String) (item : JVal) : List Frag :=
  match renderItem V now item with
  | (fs, none) => fs
  | (fs, some e) => fs ++ [.text ("\nError handling chunk: " ++ e)]

/-- All fragments produced by the chunk loop. -/
def chunksFrags (V : Valves) (now : String) (chunks : List JVal) : List Frag :=
  chunks.flatMap (processChunk V now)

/-! ## The Stream Driver -/

/-- `Pipeline.stream_retrieve` after a successful connection: the synthetic
started status, the chunk loop, the synthetic completed status. -/
def streamBody (V : Valves) (now : String) (chunks : List JVal) : List Frag :=
  .status ("Analysis started at " ++ now ++ "\n") false
    :: chunksFrags V now chunks
    ++ [.status ("Analysis completed at " ++ now ++ "\n") true]

/-- `Pipeline.stream_retrieve`: the empty-query guard, then the stream body.
The second component records whether the transport was contacted. -/
def stream_retrieve (V : Valves) (now : String) (query : String) (chunks : List JVal) :
    List Frag × Bool :=
  if query = "" then ([.text "Query is empty."], false)
  else (streamBody V now chunks, true)

/-- `Pipeline.static_retrieve` response handling (after a 200 response):
first recognized answer key wins; a string body is yielded verbatim;
anything else becomes one JSON block fragment. -/
def staticRender (result : JVal) : List Frag :=
  match result with
  | .obj l =>
    if hasKey l "text" then [.out ((jget l "text").getD .null)]
    else if hasKey l "answer" then [.out ((jget l "answer").getD .null)]
    else if hasKey l "response" then [.out ((jget l "response").getD .null)]
    else if hasKey l "result" then [.out ((jget l "result").getD .null)]
    else [.text ("```json\n" ++ dumpsV result ++ "\n```")]
  | .str s => [.out (.str s)]
  | v => [.text ("```json\n" ++ dumpsV v ++ "\n```")]

/-- `Pipeline.static_retrieve`: the empty-query guard, then the parsed
200-response body rendering.  The second component records whether the
transport was contacted. -/
def static_retrieve (_V : Valves) (query : String) (result : JVal) : List Frag × Bool :=
  if query = "" then ([.text "Query is empty."], false)
  else (staticRender result, true)

/-! ## `Pipeline.pipe` and configuration guards -/

/-- Python truthiness of an `Optional[str]`. -/
def truthy : Option String → Bool
  | none => false
  | some s => s ≠ ""

/-- `Pipeline.update_flow_details`: `self.flow_id` is set only when the
enabled flag, the flow id and the flow name are all truthy. -/
def update_flow_details (V : Valves) : Option String :=
  if V.FLOW_ENABLED && truthy V.FLOW_ID && truthy V.FLOW_NAME then V.FLOW_ID else none

/-- `Pipeline.parse_user_input`: strip the raw message. -/
def parse_user_input (user_message : String) : String :=
  pyStrip user_message

/-- `Pipeline.pipe`: the missing API-key/base-URL guard, the query
composition, the flow-configured guard, then dispatch to the selected mode.
`flow_id` is the cached result of `update_flow_details`. -/
def pipe (V : Valves) (flow_id : Option String) (user_message : String) (streaming : Bool)
    (now : String) (chunks : List JVal) (staticResult : JVal) : List Frag × Bool :=
  if V.FLOWISE_API_KEY = "" || V.FLOWISE_BASE_URL = "" then
    ([.text "Missing FlowiseAI configuration."], false)
  else
    let query := parse_user_input user_message
    if !V.FLOW_ENABLED || !truthy flow_id then
      ([.text "FlowiseAI flow is not configured or enabled."], false)
    else if streaming then stream_retrieve V now query chunks
    else static_retrieve V query staticResult

/-! ## Rate limiting (`Pipeline.rate_check`) -/

/-- The sleep duration computed by `Pipeline.rate_check`: with
`time_buffer = 1 / RATE_LIMIT`, sleep `time_buffer - elapsed` when
`elapsed < time_buffer` and nothing otherwise.  Seconds are modelled as
rationals. -/
def rate_check_sleep (RATE_LIMIT : ℚ) (elapsed : ℚ) : ℚ :=
  let time_buffer := 1 / RATE_LIMIT
  if elapsed < time_buffer then time_buffer - elapsed else 0

/-! ## Fragment bookkeeping -/

/-- The transcript text a fragment contributes in aggregate view: ephemeral
status fragments contribute nothing. -/
def fragText : Frag → String
  | .out v => pyStr v
  | .text s => s
  | .status _ _ => ""

/-- Ordered concatenation of the non-ephemeral text of a fragment sequence. -/
def aggText (fs : List Frag) : String :=
  String.join (fs.map fragText)

/-! ## Normalization and claim-side predicates -/

mutual

/-- A value is normalized when every string leaf is a fixed point of
`try_parse_json`; `unwrap_json` produces normalized values and is the
identity on them. -/
def normB : JVal → Bool
  | .str s => tryParseJson (.str s) == .str s
  | .arr l => normL l
  | .obj l => normO l
  | _ => true

/-- `normB` over a list. -/
def normL : JList → Bool
  | .nil => true
  | .cons v tl => normB v && normL tl

/-- `normB` over dict values. -/
def normO : JObj → Bool
  | .nil => true
  | .cons _ v tl => normB v && normO tl

end

mutual

/-- The hypothesis predicate of the spec's identity claim, as written:
the value contains no string whose trimmed form starts and ends with
matching bracket pairs. -/
def noJsonB : JVal → Bool
  | .str s => !(jsonLooking (pyStrip s))
  | .arr l => noJsonL l
  | .obj l => noJsonO l
  | _ => true

/-- `noJsonB` over a list. -/
def noJsonL : JList → Bool
  | .nil => true
  | .cons v tl => noJsonB v && noJsonL tl

/-- `noJsonB` over dict values. -/
def noJsonO : JObj → Bool
  | .nil => true
  | .cons _ v tl => noJsonB v && noJsonO tl

end

mutual

/-- The corrected hypothesis: no string looks like JSON after trimming,
and every string is already whitespace-stripped (`try_parse_json` strips
every string it inspects, so unstripped strings are changed). -/
def cleanB : JVal → Bool
  | .str s => (pyStrip s == s) && !(jsonLooking s)
  | .arr l => cleanL l
  | .obj l => cleanO l
  | _ => true

/-- `cleanB` over a list. -/
def cleanL : JList → Bool
  | .nil => true
  | .cons v tl => cleanB v && cleanL tl

/-- `cleanB` over dict values. -/
def cleanO : JObj → Bool
  | .nil => true
  | .cons _ v tl => cleanB v && cleanO tl

end

/-! ## Concrete inputs used by the claim theorems -/

/-- An `agentReasoning` chunk carrying a cumulative snapshot list. -/
def reasoningChunk (xs : JList) : JVal :=
  .obj (.cons "event" (.str "agentReasoning") (.cons "data" (.arr xs) .nil))

/-- A `token` chunk carrying the payload `"hi"`. -/
def tokenChunk : JVal :=
  .obj (.cons "event" (.str "token") (.cons "data" (.str "hi") .nil))

/-- A `usedTools` chunk with a single invocation record. -/
def toolChunk (nm inp out : JVal) : JVal :=
  .obj (.cons "event" (.str "usedTools")
    (.cons "data"
      (.arr (.cons (.obj (.cons "tool" nm (.cons "toolInput" inp (.cons "toolOutput" out .nil))))
        .nil))
      .nil))

/-- Valves with tool-name display off but tool input/output display on. -/
def toolValves : Valves :=
  { defaultValves with
      DISPLAY_CALLED_TOOLS := false
      DISPLAY_CALLED_TOOLS_INPUT := true
      DISPLAY_CALLED_TOOLS_OUTPUT := true }

/-! ## Basic list and measure lemmas -/

theorem dropWhile_len (p : Char → Bool) : ∀ cs : List Char,
    (cs.dropWhile p).length ≤ cs.length := by
  intro cs
  induction cs with
  | nil => simp
  | cons c tl ih =>
    by_cases hc : p c
    · simpa [List.dropWhile, hc] using Nat.le_succ_of_le ih
    · simp [List.dropWhile, hc]

theorem dropWhile_head_not (p : Char → Bool) :
    ∀ (cs : List Char) (c : Char) (tl : List Char), cs.dropWhile p = c :: tl → p c = false := by
  intro cs
  induction cs with
  | nil => intro c tl h; simp at h
  | cons a as ih =>
    intro c tl h
    by_cases ha : p a
    · rw [List.dropWhile_cons_of_pos ha] at h
      exact ih c tl h
    · rw [List.dropWhile_cons_of_neg ha] at h
      cases h
      simpa using ha

theorem dropWhile_app_pos (p : Char → Bool) :
    ∀ (xs : List Char) (c : Char) (ys zs : List Char), xs.dropWhile p = c :: ys →
      (xs ++ zs).dropWhile p = c :: (ys ++ zs) := by
  intro xs
  induction xs with
  | nil => intro c ys zs h; simp at h
  | cons a as ih =>
    intro c ys zs h
    by_cases ha : p a
    · rw [List.dropWhile_cons_of_pos ha] at h
      simpa [List.dropWhile_cons_of_pos ha] using ih c ys zs h
    · rw [List.dropWhile_cons_of_neg ha] at h
      cases h
      simp [List.dropWhile_cons_of_neg ha]

theorem dropWhile_app_neg (p : Char → Bool) :
    ∀ (xs zs : List Char), xs.dropWhile p = [] → (xs ++ zs).dropWhile p = zs.dropWhile p := by
  intro xs
  induction xs with
  | nil => intro zs _; simp
  | cons a as ih =>
    intro zs h
    by_cases ha : p a
    · rw [List.dropWhile_cons_of_pos ha] at h
      simpa [List.dropWhile_cons_of_pos ha] using ih zs h
    · rw [List.dropWhile_cons_of_neg ha] at h
      simp at h

theorem skipWs_len (cs : List Char) : (skipWs cs).length ≤ cs.length :=
  dropWhile_len isJsonWs cs

theorem stripChars_len (cs : List Char) : (stripChars cs).length ≤ cs.length := by
  unfold stripChars
  calc ((cs.dropWhile isPyWs).reverse.dropWhile isPyWs).reverse.length
      = ((cs.dropWhile isPyWs).reverse.dropWhile isPyWs).length := by simp
    _ ≤ (cs.dropWhile isPyWs).reverse.length := dropWhile_len _ _
    _ = (cs.dropWhile isPyWs).length := by simp
    _ ≤ cs.length := dropWhile_len _ _

theorem strip_front (cs : List Char) : (stripChars cs).dropWhile isPyWs = stripChars cs := by
  unfold stripChars
  cases hm : cs.dropWhile isPyWs with
  | nil => simp
  | cons c tl =>
    have hc : isPyWs c = false := dropWhile_head_not isPyWs cs c tl hm
    have hc' : ¬ isPyWs c = true := by simp [hc]
    rw [show (c :: tl).reverse = tl.reverse ++ [c] from by simp]
    cases hd : tl.reverse.dropWhile isPyWs with
    | nil =>
      rw [dropWhile_app_neg isPyWs _ _ hd,
        show List.dropWhile isPyWs [c] = [c] from List.dropWhile_cons_of_neg hc',
        show ([c] : List Char).reverse = [c] from rfl]
      exact List.dropWhile_cons_of_neg hc'
    | cons d ds =>
      rw [dropWhile_app_pos isPyWs _ _ _ _ hd,
        show (d :: (ds ++ [c])).reverse = c :: (ds.reverse ++ [d]) from by simp]
      exact List.dropWhile_cons_of_neg hc'

theorem stripChars_idem (cs : List Char) : stripChars (stripChars cs) = stripChars cs := by
  conv_lhs => rw [stripChars]
  rw [strip_front]
  rw [show (stripChars cs).reverse = ((cs.dropWhile isPyWs).reverse).dropWhile isPyWs from by
    rw [stripChars, List.reverse_reverse]]
  rw [List.dropWhile_idempotent]
  rfl

theorem pyStrip_idem (s : String) : pyStrip (pyStrip s) = pyStrip s := by
  unfold pyStrip
  rw [show (String.mk (stripChars s.data)).data = stripChars s.data from rfl,
    stripChars_idem]

theorem pyStrip_len (s : String) : (pyStrip s).length ≤ s.length :=
  stripChars_len s.data

theorem muV_pos (v : JVal) : 1 ≤ muV v := by
  cases v <;> simp [muV]


/-! ## Parser measure lemmas -/

theorem parseStrF_len : ∀ (f : Nat) (cs o r : List Char),
    parseStrF f cs = some (o, r) → o.length + r.length < cs.length := by
  intro f
  induction f with
  | zero => intro cs o r h; simp [parseStrF] at h
  | succ f ih =>
    intro cs o r h
    cases cs with
    | nil => simp [parseStrF] at h
    | cons c cs' =>
      simp only [parseStrF] at h
      split at h
      · cases h
        simp
      · split at h
        · split at h
          · split at h
            · obtain ⟨p, hp, hg⟩ := Option.map_eq_some'.mp h
              obtain ⟨o1, r1⟩ := p
              cases hg
              have := ih _ _ _ hp
              simp only [List.length_cons]
              omega
            · exact absurd h (by simp)
          · split at h
            · obtain ⟨p, hp, hg⟩ := Option.map_eq_some'.mp h
              obtain ⟨o1, r1⟩ := p
              cases hg
              have := ih _ _ _ hp
              simp only [List.length_cons]
              omega
            · exact absurd h (by simp)
          · exact absurd h (by simp)
        · obtain ⟨p, hp, hg⟩ := Option.map_eq_some'.mp h
          obtain ⟨o1, r1⟩ := p
          cases hg
          have := ih _ _ _ hp
          simp only [List.length_cons]
          omega

theorem parseDigits_len (cs : List Char) (n : Nat) (r : List Char) :
    parseDigits cs = some (n, r) → r.length < cs.length := by
  intro h
  unfold parseDigits at h
  split at h
  · simp at h
  · rename_i hne
    cases h
    cases cs with
    | nil => simp at hne
    | cons c tl =>
      by_cases hc : isDigit c
      · rw [List.dropWhile_cons_of_pos hc]
        exact Nat.lt_succ_of_le (dropWhile_len isDigit tl)
      · rw [List.takeWhile_cons_of_neg hc] at hne
        simp at hne

theorem parseNum_len (cs : List Char) (n : Int) (r : List Char) :
    parseNum cs = some (n, r) → r.length < cs.length := by
  intro h
  unfold parseNum at h
  split at h
  · obtain ⟨p, hp, hg⟩ := Option.map_eq_some'.mp h
    obtain ⟨n1, r1⟩ := p
    cases hg
    have := parseDigits_len _ _ _ hp
    simp only [List.length_cons]
    omega
  · obtain ⟨p, hp, hg⟩ := Option.map_eq_some'.mp h
    obtain ⟨n1, r1⟩ := p
    cases hg
    exact parseDigits_len _ _ _ hp

theorem parse_measure : ∀ f : Nat,
    (∀ (cs : List Char) (v : JVal) (r : List Char),
        parseVal f cs = some (v, r) → muV v + r.length ≤ cs.length) ∧
    (∀ (cs : List Char) (l : JList) (r : List Char),
        parseArrItems f cs = some (l, r) → muL l + r.length ≤ cs.length) ∧
    (∀ (cs : List Char) (l : JObj) (r : List Char),
        parseObjItems f cs = some (l, r) → muO l + r.length ≤ cs.length) := by
  intro f
  induction f with
  | zero =>
    refine ⟨?_, ?_, ?_⟩ <;> intro cs a r h <;>
      simp [parseVal, parseArrItems, parseObjItems] at h
  | succ f ih =>
    obtain ⟨ihV, ihA, ihO⟩ := ih
    refine ⟨?_, ?_, ?_⟩
    · intro cs v r h
      simp only [parseVal] at h
      split at h
      · simp at h
      · rename_i c cs1 heq
        have hsk : cs1.length + 1 ≤ cs.length := by
          have h0 := skipWs_len cs
          rw [heq] at h0
          simpa using h0
        split at h
        · -- object arm
          split at h
          · rename_i heq1
            cases h
            have hsk1 := skipWs_len cs1
            rw [heq1] at hsk1
            simp only [List.length_cons] at hsk1
            simp only [muV, muO]
            omega
          · obtain ⟨p, hp, hg⟩ := Option.map_eq_some'.mp h
            obtain ⟨l1, r1⟩ := p
            cases hg
            have hO := ihO _ _ _ hp
            have h1 := skipWs_len cs1
            simp only [muV]
            omega
        · split at h
          · -- array arm
            split at h
            · rename_i heq1
              cases h
              have hsk1 := skipWs_len cs1
              rw [heq1] at hsk1
              simp only [List.length_cons] at hsk1
              simp only [muV, muL]
              omega
            · obtain ⟨p, hp, hg⟩ := Option.map_eq_some'.mp h
              obtain ⟨l1, r1⟩ := p
              cases hg
              have hA := ihA _ _ _ hp
              have h1 := skipWs_len cs1
              simp only [muV]
              omega
          · split at h
            · -- string arm
              obtain ⟨p, hp, hg⟩ := Option.map_eq_some'.mp h
              obtain ⟨o1, r1⟩ := p
              simp only [Prod.mk.injEq] at hg
              obtain ⟨hgv, hgr⟩ := hg
              subst hgv
              subst hgr
              have hs := parseStrF_len _ _ _ _ hp
              have hml : muV (JVal.str (String.mk o1)) = 1 + o1.length := rfl
              rw [hml]
              omega
            · split at h
              · -- null literal arm
                split at h
                · cases h
                  simp only [List.length_cons] at hsk
                  simp only [muV]
                  omega
                · simp at h
              · split at h
                · -- true literal arm
                  split at h
                  · cases h
                    simp only [List.length_cons] at hsk
                    simp only [muV]
                    omega
                  · simp at h
                · split at h
                  · -- false literal arm
                    split at h
                    · cases h
                      simp only [List.length_cons] at hsk
                      simp only [muV]
                      omega
                    · simp at h
                  · -- numeral arm
                    obtain ⟨p, hp, hg⟩ := Option.map_eq_some'.mp h
                    obtain ⟨n1, r1⟩ := p
                    cases hg
                    have hn := parseNum_len _ _ _ hp
                    simp only [List.length_cons] at hn
                    simp only [muV]
                    omega
    · intro cs l r h
      simp only [parseArrItems] at h
      obtain ⟨p, hp, hb⟩ := Option.bind_eq_some.mp h
      obtain ⟨v1, r1⟩ := p
      have hv := ihV _ _ _ hp
      split at hb
      · rename_i heq1
        obtain ⟨q, hq, hg⟩ := Option.map_eq_some'.mp hb
        obtain ⟨l2, r3⟩ := q
        simp only [Prod.mk.injEq] at hg
        obtain ⟨hgv, hgr⟩ := hg
        subst hgv
        subst hgr
        have hA := ihA _ _ _ hq
        have hsk2 := skipWs_len r1
        rw [heq1] at hsk2
        simp only [List.length_cons] at hsk2
        simp only [muL]
        omega
      · rename_i heq1
        cases hb
        have hsk2 := skipWs_len r1
        rw [heq1] at hsk2
        simp only [List.length_cons] at hsk2
        simp only [muL]
        omega
      · simp at hb
    · intro cs l r h
      simp only [parseObjItems] at h
      split at h
      · rename_i cs1
        obtain ⟨kp, hk, hb⟩ := Option.bind_eq_some.mp h
        obtain ⟨k1, r1⟩ := kp
        have hkl := parseStrF_len _ _ _ _ hk
        split at hb
        · rename_i heq2
          obtain ⟨p, hp, hb2⟩ := Option.bind_eq_some.mp hb
          obtain ⟨v1, r3⟩ := p
          have hv := ihV _ _ _ hp
          have hsk2 := skipWs_len r1
          rw [heq2] at hsk2
          simp only [List.length_cons] at hsk2
          split at hb2
          · rename_i heq4
            obtain ⟨q, hq, hg⟩ := Option.map_eq_some'.mp hb2
            obtain ⟨l2, r5⟩ := q
            simp only [Prod.mk.injEq] at hg
            obtain ⟨hgv, hgr⟩ := hg
            subst hgv
            subst hgr
            have hO := ihO _ _ _ hq
            have hsk4 := skipWs_len r3
            rw [heq4] at hsk4
            simp only [List.length_cons] at hsk4
            rename_i r4
            have hsk5 := skipWs_len r4
            simp only [muO, List.length_cons]
            omega
          · rename_i heq4
            cases hb2
            have hsk4 := skipWs_len r3
            rw [heq4] at hsk4
            simp only [List.length_cons] at hsk4
            simp only [muO, List.length_cons]
            omega
          · simp at hb2
        · simp at hb
      · simp at h

theorem loads_measure (s : String) (v : JVal) (h : loadsJson s = some v) :
    muV v ≤ s.length := by
  unfold loadsJson at h
  split at h
  · rename_i v1 r1 heq
    split at h
    · cases h
      have := (parse_measure (s.data.length + 1)).1 _ _ _ heq
      have hlen : s.length = s.data.length := rfl
      omega
    · simp at h
  · simp at h

theorem loads_shape (s : String) (v : JVal) (h : loadsJson s = some v)
    (hl : jsonLooking s = true) :
    (∃ l, v = JVal.obj l) ∨ (∃ l, v = JVal.arr l) := by
  unfold loadsJson at h
  split at h
  · rename_i v1 r1 hp
    split at h
    · cases h
      have hhead : s.data.head? = some '{' ∨ s.data.head? = some '[' := by
        simp only [jsonLooking, Bool.or_eq_true, Bool.and_eq_true, decide_eq_true_eq] at hl
        rcases hl with ⟨h1, _⟩ | ⟨h1, _⟩
        · exact Or.inl h1
        · exact Or.inr h1
      cases hcs : s.data with
      | nil => rw [hcs] at hhead; simp at hhead
      | cons c cs1 =>
        rw [hcs] at hhead hp
        simp only [List.head?_cons, Option.some.injEq] at hhead
        have hnws : isJsonWs c = false := by
          rcases hhead with h1 | h1 <;> subst h1 <;> decide
        have hskip : skipWs (c :: cs1) = c :: cs1 :=
          List.dropWhile_cons_of_neg (by simp [hnws])
        simp only [parseVal, hskip] at hp
        rcases hhead with h1 | h1
        · rw [if_pos h1] at hp
          split at hp
          · cases hp
            exact Or.inl ⟨_, rfl⟩
          · obtain ⟨q, hq, hg⟩ := Option.map_eq_some'.mp hp
            obtain ⟨l1, r1⟩ := q
            simp only [Prod.mk.injEq] at hg
            exact Or.inl ⟨l1, hg.1.symm⟩
        · have hno : ¬ c = '{' := by subst h1; decide
          rw [if_neg hno, if_pos h1] at hp
          split at hp
          · cases hp
            exact Or.inr ⟨_, rfl⟩
          · obtain ⟨q, hq, hg⟩ := Option.map_eq_some'.mp hp
            obtain ⟨l1, r1⟩ := q
            simp only [Prod.mk.injEq] at hg
            exact Or.inr ⟨l1, hg.1.symm⟩
    · simp at h
  · simp at h

theorem tryParse_mu (v : JVal) : muV (tryParseJson v) ≤ muV v := by
  cases v with
  | str s0 =>
    simp only [tryParseJson]
    split
    · cases hl : loadsJson (pyStrip s0) with
      | none =>
        simp only [hl, muV]
        have := pyStrip_len s0
        omega
      | some w =>
        simp only [hl]
        have h1 := loads_measure _ _ hl
        have h2 := pyStrip_len s0
        simp only [muV]
        omega
    · simp only [muV]
      have := pyStrip_len s0
      omega
  | null => exact le_refl _
  | bool b => exact le_refl _
  | num n => exact le_refl _
  | arr l => exact le_refl _
  | obj l => exact le_refl _

theorem tryParse_str_fix (s0 s : String) (h : tryParseJson (.str s0) = .str s) :
    tryParseJson (.str s) = .str s := by
  simp only [tryParseJson] at h
  by_cases hl : jsonLooking (pyStrip s0) = true
  · rw [if_pos hl] at h
    cases hld : loadsJson (pyStrip s0) with
    | some w =>
      rw [hld] at h
      rcases loads_shape _ _ hld hl with ⟨l, rfl⟩ | ⟨l, rfl⟩ <;> simp at h
    | none =>
      rw [hld] at h
      cases h
      simp only [tryParseJson, pyStrip_idem, hl, if_pos, hld]
  · rw [if_neg hl] at h
    cases h
    simp only [tryParseJson, pyStrip_idem]
    rw [if_neg hl]

theorem unwrap_norm : ∀ f : Nat,
    (∀ v : JVal, muV v ≤ f → normB (unwrapF f v) = true) ∧
    (∀ l : JList, muL l ≤ f → normL (unwrapA f l) = true) ∧
    (∀ l : JObj, muO l ≤ f → normO (unwrapO f l) = true) := by
  intro f
  induction f with
  | zero =>
    refine ⟨?_, ?_, ?_⟩
    · intro v hv
      have := muV_pos v
      omega
    · intro l hl
      cases l with
      | nil => simp [unwrapA, normL]
      | cons v tl =>
        have := muV_pos v
        simp only [muL] at hl
        omega
    · intro l hl
      cases l with
      | nil => simp [unwrapO, normO]
      | cons k v tl =>
        have := muV_pos v
        simp only [muO] at hl
        omega
  | succ f ih =>
    obtain ⟨ihV, ihL, ihO⟩ := ih
    refine ⟨?_, ?_, ?_⟩
    · intro v hv
      have htm := tryParse_mu v
      simp only [unwrapF]
      cases htp : tryParseJson v with
      | obj l =>
        rw [htp] at htm
        simp only [muV] at htm
        simp only [normB]
        exact ihO l (by omega)
      | arr l =>
        rw [htp] at htm
        simp only [muV] at htm
        simp only [normB]
        exact ihL l (by omega)
      | null => simp [normB]
      | bool b => simp [normB]
      | num n => simp [normB]
      | str s =>
        simp only [normB, beq_iff_eq]
        cases v with
        | str s0 => exact tryParse_str_fix s0 s htp
        | null => simp [tryParseJson] at htp
        | bool b => simp [tryParseJson] at htp
        | num n => simp [tryParseJson] at htp
        | arr l0 => simp [tryParseJson] at htp
        | obj l0 => simp [tryParseJson] at htp
    · intro l hl
      cases l with
      | nil => simp [unwrapA, normL]
      | cons v tl =>
        simp only [muL] at hl
        simp only [unwrapA, normL, Bool.and_eq_true]
        exact ⟨ihV v (by omega), ihL tl (by omega)⟩
    · intro l hl
      cases l with
      | nil => simp [unwrapO, normO]
      | cons k v tl =>
        simp only [muO] at hl
        simp only [unwrapO, normO, Bool.and_eq_true]
        exact ⟨ihV v (by omega), ihO tl (by omega)⟩

theorem unwrap_id_of_norm : ∀ f : Nat,
    (∀ v : JVal, normB v = true → unwrapF f v = v) ∧
    (∀ l : JList, normL l = true → unwrapA f l = l) ∧
    (∀ l : JObj, normO l = true → unwrapO f l = l) := by
  intro f
  induction f with
  | zero => exact ⟨fun v _ => rfl, fun l _ => rfl, fun l _ => rfl⟩
  | succ f ih =>
    obtain ⟨ihV, ihL, ihO⟩ := ih
    refine ⟨?_, ?_, ?_⟩
    · intro v hv
      cases v with
      | null => rfl
      | bool b => rfl
      | num n => rfl
      | str s =>
        simp only [normB, beq_iff_eq] at hv
        simp only [unwrapF, hv]
      | arr l =>
        simp only [normB] at hv
        simp only [unwrapF, tryParseJson]
        rw [ihL l hv]
      | obj l =>
        simp only [normB] at hv
        simp only [unwrapF, tryParseJson]
        rw [ihO l hv]
    · intro l hl
      cases l with
      | nil => rfl
      | cons v tl =>
        simp only [normL, Bool.and_eq_true] at hl
        simp only [unwrapA]
        rw [ihV v hl.1, ihL tl hl.2]
    · intro l hl
      cases l with
      | nil => rfl
      | cons k v tl =>
        simp only [normO, Bool.and_eq_true] at hl
        simp only [unwrapO]
        rw [ihV v hl.1, ihO tl hl.2]

theorem clean_norm : ∀ n : Nat,
    (∀ v : JVal, muV v ≤ n → cleanB v = true → normB v = true) ∧
    (∀ l : JList, muL l ≤ n → cleanL l = true → normL l = true) ∧
    (∀ l : JObj, muO l ≤ n → cleanO l = true → normO l = true) := by
  intro n
  induction n with
  | zero =>
    refine ⟨?_, ?_, ?_⟩
    · intro v hv
      have := muV_pos v
      omega
    · intro l hl _
      cases l with
      | nil => simp [normL]
      | cons v tl =>
        have := muV_pos v
        simp only [muL] at hl
        omega
    · intro l hl _
      cases l with
      | nil => simp [normO]
      | cons k v tl =>
        have := muV_pos v
        simp only [muO] at hl
        omega
  | succ n ih =>
    obtain ⟨ihV, ihL, ihO⟩ := ih
    refine ⟨?_, ?_, ?_⟩
    · intro v hv hc
      cases v with
      | null => rfl
      | bool b => rfl
      | num n => rfl
      | str s =>
        simp only [cleanB, Bool.and_eq_true, beq_iff_eq, Bool.not_eq_true'] at hc
        obtain ⟨hstrip, hlook⟩ := hc
        simp only [normB, beq_iff_eq, tryParseJson, hstrip, hlook]
        rw [if_neg (by simp [hlook])]
      | arr l =>
        simp only [cleanB] at hc
        simp only [muV] at hv
        simp only [normB]
        exact ihL l (by omega) hc
      | obj l =>
        simp only [cleanB] at hc
        simp only [muV] at hv
        simp only [normB]
        exact ihO l (by omega) hc
    · intro l hl hc
      cases l with
      | nil => rfl
      | cons v tl =>
        simp only [cleanL, Bool.and_eq_true] at hc
        simp only [muL] at hl
        simp only [normL, Bool.and_eq_true]
        exact ⟨ihV v (by omega) hc.1, ihL tl (by omega) hc.2⟩
    · intro l hl hc
      cases l with
      | nil => rfl
      | cons k v tl =>
        simp only [cleanO, Bool.and_eq_true] at hc
        simp only [muO] at hl
        simp only [normO, Bool.and_eq_true]
        exact ⟨ihV v (by omega) hc.1, ihO tl (by omega) hc.2⟩

/-! ## Evaluation checks -/

example : loadsJson "\x7b\"k\": 1\x7d" = some (.obj (.cons "k" (.num 1) .nil)) := by decide
example : loadsJson "][broken" = none := by decide
example : loadsJson "[\"a\", null, true]"
    = some (.arr (.cons (.str "a") (.cons .null (.cons (.bool true) .nil)))) := by decide

example : unwrap_json (.str "  \x7b\"k\": \" 1 \"\x7d ")
    = .obj (.cons "k" (.str "1") .nil) := by decide
example : unwrap_json (.str "not json") = .str "not json" := by decide

/-! ## Claim theorems -/

/-- C5: the Nested-JSON Unwrapper is idempotent: for every value `x`,
`unwrap_json (unwrap_json x) = unwrap_json x`. -/
theorem C5_unwrap_idempotent (v : JVal) :
    unwrap_json (unwrap_json v) = unwrap_json v :=
  (unwrap_id_of_norm (muV (unwrap_json v))).1 _ ((unwrap_norm (muV v)).1 v (le_refl _))

/-- C4 counterexample: the claim "`unwrap` is the identity on every value
containing no JSON-looking strings" fails at the string `" a"` — it contains
no string whose trimmed form is bracket-delimited, yet `unwrap_json`
strips it to `"a"`. -/
theorem C4_cex :
    noJsonB (.str " a") = true ∧ unwrap_json (.str " a") ≠ .str " a" := by
  constructor
  · decide
  · decide

/-- C4 amended: `unwrap_json` is the identity on every value whose strings
are already whitespace-stripped and whose trimmed strings are not
bracket-delimited (the stripping side condition is forced: `try_parse_json`
strips every string it inspects). -/
theorem C4_amended (v : JVal) (h : cleanB v = true) : unwrap_json v = v :=
  (unwrap_id_of_norm (muV v)).1 v ((clean_norm (muV v)).1 v (le_refl _) h)

/-- C4 amended, witness at a concrete dict. -/
theorem C4_amended_witness :
    cleanB (.obj (.cons "k" (.str "ab") .nil)) = true ∧
      unwrap_json (.obj (.cons "k" (.str "ab") .nil)) = .obj (.cons "k" (.str "ab") .nil) :=
  ⟨by decide, C4_amended _ (by decide)⟩

/-- C2: evaluating the coded `rate_check` computation at the claimed inputs:
with `RATE_LIMIT = 5` and `elapsed = 0` the coded sleep is `1/5` of a second,
not the `12 = 60/5` seconds the claim (and the valve's "ops/minute"
description) requires; for `elapsed ≥ 12` the coded sleep is `0` as claimed. -/
theorem C2_rate_sleep_eval :
    rate_check_sleep 5 0 = 1 / 5 ∧ ((1 : ℚ) / 5 ≠ 12) ∧
      rate_check_sleep 5 12 = 0 ∧ rate_check_sleep 5 20 = 0 := by
  refine ⟨?_, by norm_num, ?_, ?_⟩ <;> norm_num [rate_check_sleep]

example :
    processChunk defaultValves "t" (reasoningChunk (.cons (.str "a") .nil))
      = [.status "Thinking...\n" false, .text "[Reasoning Step] \"a\"\n"] := by decide

example :
    aggText (streamBody defaultValves "t" [tokenChunk]) = "hi" := by decide

example :
    processChunk toolValves "t" (toolChunk (.str "t1") (.str "x") (.str "\x7b\"k\": 1\x7d"))
      = [.status "Tool calling...\n" false] := by decide

/-- C1 counterexample: for successive cumulative snapshots `["a"]`,
`["a","b"]`, `["a","b","c"]` in one stream, the `"a"` reasoning-step
fragment is emitted three times, not once — the renderer keeps no running
index and re-emits previously rendered entries. -/
theorem C1_cex :
    (streamBody defaultValves "t"
        [reasoningChunk (.cons (.str "a") .nil),
         reasoningChunk (.cons (.str "a") (.cons (.str "b") .nil)),
         reasoningChunk (.cons (.str "a") (.cons (.str "b") (.cons (.str "c") .nil)))]).count
      (Frag.text "[Reasoning Step] \"a\"\n") = 3 := by decide

/-- C1 amended: the renderer re-renders every entry of each cumulative
snapshot (no cross-snapshot index exists): the three snapshots yield one,
then two, then three reasoning-step fragments, re-emitting earlier entries. -/
theorem C1_amended :
    streamBody defaultValves "t"
        [reasoningChunk (.cons (.str "a") .nil),
         reasoningChunk (.cons (.str "a") (.cons (.str "b") .nil)),
         reasoningChunk (.cons (.str "a") (.cons (.str "b") (.cons (.str "c") .nil)))]
      = [.status "Analysis started at t\n" false,
         .status "Thinking...\n" false,
         .text "[Reasoning Step] \"a\"\n",
         .status "Thinking...\n" false,
         .text "[Reasoning Step] \"a\"\n",
         .text "[Reasoning Step] \"b\"\n",
         .status "Thinking...\n" false,
         .text "[Reasoning Step] \"a\"\n",
         .text "[Reasoning Step] \"b\"\n",
         .text "[Reasoning Step] \"c\"\n",
         .status "Analysis completed at t\n" true] := by decide

/-- C10: for every `agentReasoning` chunk (no `error` key), the ephemeral
"Thinking..." status fragment is emitted first and unconditionally; only the
reasoning text blocks are gated by `DISPLAY_AGENT_REASONING`. -/
theorem C10_thinking_status (V : Valves) (now : String) (d : JVal) :
    processChunk V now (.obj (.cons "event" (.str "agentReasoning") (.cons "data" d .nil)))
      = .status "Thinking...\n" false ::
        (if V.DISPLAY_AGENT_REASONING then reasoningFrags d else []) := rfl

/-- C9: every successfully parsed dict record containing an `error` key
yields exactly the one error fragment, whatever its `event` kind and
whatever the visibility flags. -/
theorem C9_error_single_fragment (V : Valves) (now : String) (l : JObj)
    (h : hasKey l "error" = true) :
    processChunk V now (.obj l)
      = [.text ("Error during streaming: " ++ pyStr ((jget l "error").getD .null))] := by
  simp [processChunk, renderItem, renderParsed, h]

/-- C9 witness: a `token`-kind record with an `error` key, under default
valves. -/
theorem C9_error_single_fragment_witness :
    hasKey (JObj.cons "error" (.str "boom") (.cons "event" (.str "token") .nil)) "error" = true ∧
      processChunk defaultValves "t"
          (.obj (JObj.cons "error" (.str "boom") (.cons "event" (.str "token") .nil)))
        = [.text "Error during streaming: boom"] := by
  refine ⟨by decide, ?_⟩
  rw [C9_error_single_fragment defaultValves "t" _ (by decide)]
  decide

/-- C7: a raw string chunk that fails JSON parsing yields exactly one
invalid-chunk warning fragment and no exception, and the chunk loop treats
every chunk independently: the fragments of `c :: rest` are those of `c`
followed by those of `rest` (one bad chunk never aborts the remainder;
`processChunk` contains every render exception by construction). -/
theorem C7_bad_chunk_contained (V : Valves) (now : String) (s : String) (c : JVal)
    (rest : List JVal) (h : loadsJson s = none) :
    processChunk V now (.str s) = [.text ("Invalid JSON chunk:\n```\n" ++ s ++ "\n```")] ∧
      chunksFrags V now (c :: rest) = processChunk V now c ++ chunksFrags V now rest := by
  constructor
  · simp [processChunk, renderItem, h]
  · simp [chunksFrags]

/-- C7 witness: the unparseable chunk `"][broken"` followed by a healthy
`token` chunk. -/
theorem C7_bad_chunk_contained_witness :
    loadsJson "][broken" = none ∧
      processChunk defaultValves "t" (.str "][broken")
        = [.text "Invalid JSON chunk:\n```\n][broken\n```"] ∧
      chunksFrags defaultValves "t" [.str "][broken", tokenChunk]
        = processChunk defaultValves "t" (.str "][broken")
            ++ chunksFrags defaultValves "t" [tokenChunk] := by
  refine ⟨by decide, ?_, ?_⟩
  · have := (C7_bad_chunk_contained defaultValves "t" "][broken" tokenChunk [] (by decide)).1
    rw [this]
    decide
  · exact (C7_bad_chunk_contained defaultValves "t" "][broken" (.str "][broken") [tokenChunk]
      (by decide)).2

/-- C6 counterexample: the three tool-display flags are not independent.
With the show-tool-names flag off but the show-inputs and show-outputs flags
both on, a `usedTools` chunk yields only the ephemeral status fragment — no
formatted block (and no unwrapped output) is emitted at all, contrary to
independently gated rendering. -/
theorem C6_cex :
    toolValves.DISPLAY_CALLED_TOOLS = false ∧
      toolValves.DISPLAY_CALLED_TOOLS_INPUT = true ∧
      toolValves.DISPLAY_CALLED_TOOLS_OUTPUT = true ∧
      processChunk toolValves "t" (toolChunk (.str "t1") (.str "x") (.str "\x7b\"k\": 1\x7d"))
        = [.status "Tool calling...\n" false] := by
  refine ⟨rfl, rfl, rfl, by decide⟩

/-- C6 amended: for a `usedTools` chunk (no `error` key) with a single
invocation record, the "Tool calling..." status is emitted unconditionally;
the formatted block is emitted only when `DISPLAY_CALLED_TOOLS` is on, and
inside it the input section is additionally gated by
`DISPLAY_CALLED_TOOLS_INPUT` and the output section by
`DISPLAY_CALLED_TOOLS_OUTPUT`, with the output always passed through
`unwrap_json` before formatting. -/
theorem C6_amended (V : Valves) (now : String) (nm inp out : JVal) :
    processChunk V now (toolChunk nm inp out)
      = .status "Tool calling...\n" false ::
        (if V.DISPLAY_CALLED_TOOLS then
          [.text ("\n\n__Called Tools__:\n" ++ String.intercalate "\n"
            (["  - " ++ pyStr nm ++ "\n"]
              ++ (if V.DISPLAY_CALLED_TOOLS_INPUT then
                    ["```json\nInput:\n\n"
                      ++ dumpsV (match inp with
                          | .str s => (loadsJson s).getD (.str s)
                          | v => v)
                      ++ "\n```\n"]
                  else [])
              ++ (if V.DISPLAY_CALLED_TOOLS_OUTPUT then
                    ["```json\nOutput:\n\n" ++ dumpsV (unwrap_json out) ++ "\n```"]
                  else []))
            ++ "\n")]
         else []) := by
  by_cases hA : V.DISPLAY_CALLED_TOOLS
  · by_cases hB : V.DISPLAY_CALLED_TOOLS_INPUT
    · by_cases hC : V.DISPLAY_CALLED_TOOLS_OUTPUT
      · simp [processChunk, renderItem, renderParsed, renderEvent, usedToolsBody,
          formatTools, formatToolCall, toolChunk, hasKey, jget, hA, hB, hC]
      · simp [processChunk, renderItem, renderParsed, renderEvent, usedToolsBody,
          formatTools, formatToolCall, toolChunk, hasKey, jget, hA, hB, hC]
    · by_cases hC : V.DISPLAY_CALLED_TOOLS_OUTPUT
      · simp [processChunk, renderItem, renderParsed, renderEvent, usedToolsBody,
          formatTools, formatToolCall, toolChunk, hasKey, jget, hA, hB, hC]
      · simp [processChunk, renderItem, renderParsed, renderEvent, usedToolsBody,
          formatTools, formatToolCall, toolChunk, hasKey, jget, hA, hB, hC]
  · simp [processChunk, renderItem, renderParsed, renderEvent, toolChunk, hasKey, jget, hA]

/-- C3 counterexample: aggregate mode does not drive per-event
classification.  For the one-event sequence `[token "hi"]`, incremental mode
concatenates to `"hi"`, while aggregate mode handed the same parsed record
as its response body returns a single JSON-block fragment different from
`"hi"`. -/
theorem C3_cex :
    aggText (streamBody defaultValves "t" [tokenChunk]) = "hi" ∧
      (static_retrieve defaultValves "q" tokenChunk).1
        = [.text ("```json\n" ++ dumpsV tokenChunk ++ "\n```")] ∧
      aggText ((static_retrieve defaultValves "q" tokenChunk).1)
        ≠ aggText (streamBody defaultValves "t" [tokenChunk]) := by
  refine ⟨by decide, by decide, by decide⟩

/-- C3 amended: aggregate mode performs no per-event classification.  Its
response handling always returns exactly one fragment: for a dict body, the
value stored under the first recognized answer key in the order `text`,
`answer`, `response`, `result` (earlier keys take precedence, later keys are
ignored), or a JSON-block fragment when none of the four keys is present;
for a string body, the string itself; for every other body, a JSON-block
fragment.  Its output is therefore not in general the concatenation of
incremental-mode fragments. -/
theorem C3_amended :
    (∀ result : JVal, (staticRender result).length = 1) ∧
      (∀ (l : JObj) (v : JVal), jget l "text" = some v → staticRender (.obj l) = [.out v]) ∧
      (∀ (l : JObj) (v : JVal), jget l "text" = none → jget l "answer" = some v →
        staticRender (.obj l) = [.out v]) ∧
      (∀ (l : JObj) (v : JVal), jget l "text" = none → jget l "answer" = none →
        jget l "response" = some v → staticRender (.obj l) = [.out v]) ∧
      (∀ (l : JObj) (v : JVal), jget l "text" = none → jget l "answer" = none →
        jget l "response" = none → jget l "result" = some v →
        staticRender (.obj l) = [.out v]) ∧
      (∀ l : JObj, jget l "text" = none → jget l "answer" = none →
        jget l "response" = none → jget l "result" = none →
        staticRender (.obj l) = [.text ("```json\n" ++ dumpsV (.obj l) ++ "\n```")]) ∧
      (∀ s : String, staticRender (.str s) = [.out (.str s)]) ∧
      (∀ v : JVal, (∀ l : JObj, v ≠ .obj l) → (∀ s : String, v ≠ .str s) →
        staticRender v = [.text ("```json\n" ++ dumpsV v ++ "\n```")]) := by
  refine ⟨?_, ?_, ?_, ?_, ?_, ?_, ?_, ?_⟩
  · intro result
    cases result with
    | obj l =>
      simp only [staticRender]
      split_ifs <;> simp
    | null => simp [staticRender]
    | bool b => simp [staticRender]
    | num n => simp [staticRender]
    | str s => simp [staticRender]
    | arr l => simp [staticRender]
  · intro l v h
    simp [staticRender, hasKey, h]
  · intro l v h1 h2
    simp [staticRender, hasKey, h1, h2]
  · intro l v h1 h2 h3
    simp [staticRender, hasKey, h1, h2, h3]
  · intro l v h1 h2 h3 h4
    simp [staticRender, hasKey, h1, h2, h3, h4]
  · intro l h1 h2 h3 h4
    simp [staticRender, hasKey, h1, h2, h3, h4]
  · intro s
    rfl
  · intro v hobj hstr
    cases v with
    | obj l => exact absurd rfl (hobj l)
    | str s => exact absurd rfl (hstr s)
    | null => rfl
    | bool b => rfl
    | num n => rfl
    | arr l => rfl

/-- C3 amended, witness: the four precedence cases (a `text` key shadowing
an `answer` key; an `answer`, `response` and `result` key each winning when
the earlier keys are absent), the no-recognized-key dict fallback, a string
body, and a non-dict non-string body. -/
theorem C3_amended_witness :
    staticRender (.obj (JObj.cons "text" (.str "ok") (JObj.cons "answer" (.str "no") .nil)))
        = [.out (.str "ok")] ∧
      staticRender (.obj (JObj.cons "answer" (.str "a2") (JObj.cons "result" (.str "no") .nil)))
        = [.out (.str "a2")] ∧
      staticRender (.obj (JObj.cons "response" (.str "a3") .nil)) = [.out (.str "a3")] ∧
      staticRender (.obj (JObj.cons "result" (.str "a4") .nil)) = [.out (.str "a4")] ∧
      staticRender (.obj (JObj.cons "other" (.num 1) .nil))
        = [.text ("```json\n" ++ dumpsV (.obj (JObj.cons "other" (.num 1) .nil)) ++ "\n```")] ∧
      staticRender (.str "plain") = [.out (.str "plain")] ∧
      staticRender (.num 7) = [.text ("```json\n" ++ dumpsV (.num 7) ++ "\n```")] ∧
      (staticRender (.arr (.cons (.num 1) .nil))).length = 1 :=
  ⟨C3_amended.2.1 _ _ (by decide),
    C3_amended.2.2.1 _ _ (by decide) (by decide),
    C3_amended.2.2.2.1 _ _ (by decide) (by decide) (by decide),
    C3_amended.2.2.2.2.1 _ _ (by decide) (by decide) (by decide) (by decide),
    C3_amended.2.2.2.2.2.1 _ (by decide) (by decide) (by decide) (by decide),
    C3_amended.2.2.2.2.2.2.1 "plain",
    C3_amended.2.2.2.2.2.2.2 (.num 7) (fun l h => by cases h) (fun s h => by cases h),
    C3_amended.1 _⟩

/-- C8: whenever the flow is disabled, the flow id or name is missing (so
`update_flow_details` leaves no cached flow id), or the stripped query is
empty, both the streaming and the non-streaming mode return exactly one
explanatory fragment and never contact the transport. -/
theorem C8_short_circuit (V : Valves) (msg : String) (streaming : Bool) (now : String)
    (chunks : List JVal) (res : JVal)
    (h : V.FLOW_ENABLED = false ∨ truthy V.FLOW_ID = false ∨ truthy V.FLOW_NAME = false ∨
      pyStrip msg = "") :
    (pipe V (update_flow_details V) msg streaming now chunks res).2 = false ∧
      (pipe V (update_flow_details V) msg streaming now chunks res).1.length = 1 := by
  unfold pipe
  split
  · simp
  · split
    · simp
    · rename_i hk hguard
      have hgb : (!V.FLOW_ENABLED || !truthy (update_flow_details V)) = false := by
        cases hx : (!V.FLOW_ENABLED || !truthy (update_flow_details V)) with
        | false => rfl
        | true => exact absurd hx hguard
      simp only [Bool.or_eq_false_iff, Bool.not_eq_false'] at hgb
      obtain ⟨hen, htr⟩ := hgb
      have hen' : V.FLOW_ENABLED = true := by
        cases hb : V.FLOW_ENABLED with
        | true => rfl
        | false => rw [hb] at hen; simp at hen
      have hq : pyStrip msg = "" := by
        unfold update_flow_details at htr
        split at htr
        · rename_i hcond
          simp only [Bool.and_eq_true] at hcond
          rcases h with h1 | h1 | h1 | h1
          · rw [h1] at hen'; cases hen'
          · rw [h1] at hcond; simp at hcond
          · rw [h1] at hcond; simp at hcond
          · exact h1
        · simp [truthy] at htr
      unfold parse_user_input
      rw [hq]
      cases streaming with
      | true => simp [stream_retrieve]
      | false => simp [static_retrieve]

/-- C8 witness: default valves (flow disabled) with a nonempty message, in
streaming mode. -/
theorem C8_short_circuit_witness :
    (defaultValves.FLOW_ENABLED = false ∨ truthy defaultValves.FLOW_ID = false ∨
        truthy defaultValves.FLOW_NAME = false ∨ pyStrip "hello" = "") ∧
      (pipe defaultValves (update_flow_details defaultValves) "hello" true "t" [] .null).2
          = false ∧
      (pipe defaultValves (update_flow_details defaultValves) "hello" true "t" [] .null).1.length
          = 1 := by
  refine ⟨Or.inl rfl, ?_⟩
  exact C8_short_circuit defaultValves "hello" true "t" [] .null (Or.inl rfl)
